import Mathlib

/-! Verification development for the AngeBOT conversational NL-to-SQL assistant
(source files `app.py`, `backend.py`, `frontend.py`, `frontend_new.py`).

Shallow-embedding conventions:
* Python strings are Lean `String`, with character-level work done on `List Char`.
* A langchain chain stage `prompt | llm | StrOutputParser()` is embedded as a
  function from the prompt's variable assignment (a record of the template's
  placeholder values) to the produced text; the fixed template text itself is
  injective in its placeholders, so this captures exactly the data flow.
  Model calls may fail (network errors), so the stub functions return `Except`.
* The SQLite database handle is a record with the schema text returned by
  `get_table_info()` and a fallible `run` function.
* External calls made during one `get_response` invocation are recorded in an
  event list so that claims about call counts (schema fetches, model calls,
  query executions) can be stated.
-/

deriving instance DecidableEq for Except

namespace AngeBot

/-- Backtick character (code point 96), the building block of markdown
code fences. -/
def btick : Char := Char.ofNat 96

/-- Whitespace test used by Python's `strip` and `split` (restricted to the
characters Lean's `Char.isWhitespace` covers: space, tab, carriage return,
newline). -/
def isWs (c : Char) : Bool := c.isWhitespace

/-- Does the character list start with one backtick? -/
def startsBt : List Char → Bool
  | [] => false
  | c :: _ => decide (c = btick)

/-- Does the character list start with two backticks? -/
def startsBtBt : List Char → Bool
  | [] => false
  | [_] => false
  | c :: d :: _ => decide (c = btick) && decide (d = btick)

/-- Does the character list contain three consecutive backticks (a markdown
fence token) anywhere? -/
def hasTriple : List Char → Bool
  | [] => false
  | c :: cs => (decide (c = btick) && startsBtBt cs) || hasTriple cs

/-- Modelled from the spec: step 1 of the Statement Sanitizer (no sanitizer
function exists in the repository's source files; spec section 4.3 specifies
its contract). Removes an opening fence token, with a case-insensitive `sql`
language tag, if present at the start of the text. -/
def dropOpeningFence (s : List Char) : List Char :=
  match s with
  | c :: d :: e :: rest =>
    if c = btick ∧ d = btick ∧ e = btick then
      match rest with
      | x :: y :: z :: rest2 =>
        if x.toLower = 's' ∧ y.toLower = 'q' ∧ z.toLower = 'l' then rest2
        else rest
      | _ => rest
    else s
  | _ => s

/-- Modelled from the spec: step 2 of the Statement Sanitizer. Removes a
trailing fence token if present at the end of the text. -/
def dropTrailingFence (s : List Char) : List Char :=
  match s.reverse with
  | c :: d :: e :: rest =>
    if c = btick ∧ d = btick ∧ e = btick then rest.reverse else s
  | _ => s

/-- Modelled from the spec: step 3 of the Statement Sanitizer. Removes every
remaining fence token anywhere in the text (Python `str.replace` semantics:
leftmost match first, scanning resumes after the removed occurrence). -/
def removeAllFences : List Char → List Char
  | [] => []
  | [c] => [c]
  | [c, d] => [c, d]
  | c :: d :: e :: rest =>
    if c = btick ∧ d = btick ∧ e = btick then removeAllFences rest
    else c :: removeAllFences (d :: e :: rest)

/-- Python `str.strip`: drop leading and trailing whitespace. Also
step 4 of the spec-modelled Statement Sanitizer. -/
def trimChars (s : List Char) : List Char :=
  ((s.dropWhile isWs).reverse.dropWhile isWs).reverse

/-- Worker for whitespace-run collapsing. The flag records whether the
scanner is currently inside a whitespace run whose single replacement space
has already been emitted. -/
def collapseAux : Bool → List Char → List Char
  | _, [] => []
  | prevWs, c :: cs =>
    if isWs c then
      if prevWs then collapseAux true cs
      else ' ' :: collapseAux true cs
    else c :: collapseAux false cs

/-- Modelled from the spec: step 5 of the Statement Sanitizer. Collapses every
run of whitespace (including newlines) into a single space. -/
def collapseRuns (s : List Char) : List Char := collapseAux false s

/-- Composition of the five sanitizer steps at the character-list level. -/
def sanitizeChars (s : List Char) : List Char :=
  collapseRuns (trimChars (removeAllFences (dropTrailingFence (dropOpeningFence s))))

/-- Modelled from the spec: the repository's source files contain no Statement
Sanitizer (nothing between the synthesis chain's `StrOutputParser` and
`db.run` in `backend.py`/`app.py` strips fences or whitespace), so the
function is built from the contract in spec section 4.3: (1) remove an opening
fence token (case-insensitive `sql` fence) if present, (2) remove a trailing
fence token if present, (3) remove any remaining fence tokens anywhere,
(4) trim leading/trailing whitespace, (5) collapse every whitespace run into a
single space. Pure and total. -/
def sanitize (s : String) : String := ⟨sanitizeChars s.data⟩

/-- Python `",".join` on a list of character lists: interleave the separator
character between the elements. -/
def pyJoin (sep : Char) : List (List Char) → List Char
  | [] => []
  | [w] => w
  | w :: ws => w ++ sep :: pyJoin sep ws

/-- Worker for Python `str.split(sep)`: `acc` holds the current chunk in
reverse order. -/
def pySplitAux (sep : Char) (acc : List Char) : List Char → List (List Char)
  | [] => [acc.reverse]
  | c :: cs =>
    if c = sep then acc.reverse :: pySplitAux sep [] cs
    else pySplitAux sep (c :: acc) cs

/-- Python `str.split(sep)` with an explicit one-character separator: splits at
every separator occurrence and keeps empty chunks, so the empty string yields
the one-element list holding the empty string. -/
def pySplit (sep : Char) (s : List Char) : List (List Char) :=
  pySplitAux sep [] s

/-- String-level wrapper for `pyJoin` (Python `sep.join(list)`). -/
def pyJoinStr (sep : Char) (l : List String) : String :=
  ⟨pyJoin sep (l.map String.data)⟩

/-- String-level wrapper for `pySplit` (Python `s.split(sep)`). -/
def pySplitStr (sep : Char) (s : String) : List String :=
  (pySplit sep s.data).map fun cs => ⟨cs⟩

/-- String-level wrapper for Python `str.strip()`. -/
def pyStrip (s : String) : String := ⟨trimChars s.data⟩

example : sanitize "```sql\nSELECT 1;\n```" = "SELECT 1;" := by decide
example : sanitize "SELECT   1\n\nFROM  t" = "SELECT 1 FROM t" := by decide
example : pySplitStr ',' (pyJoinStr ',' ["Car", "Bus"]) = ["Car", "Bus"] := by decide
example : pySplitStr ',' (pyJoinStr ',' []) = [""] := by decide
example : pyStrip "  \n " = "" := by decide

/-- Conversation-history entries. `frontend.py` stores assistant turns as a
dict with keys role/content/model_name (`aiDict`); `app.py` and
`frontend_new.py` store langchain `AIMessage` values (`aiMsg`); user turns are
`HumanMessage` values (`human`) everywhere. -/
inductive Message
  | human (content : String)
  | aiMsg (content : String)
  | aiDict (content : String) (model_name : String)
deriving DecidableEq

/-- Value of the `transport` key of the `user_info` dict. The backend's
projection lambda distinguishes a Python list (`items`), a non-list value,
in practice a string (`single`), and a missing key (`absent`). -/
inductive TransportVal
  | items (l : List String)
  | single (s : String)
  | absent
deriving DecidableEq

/-- The `user_info` dict built by the frontend pages. The backend reads
`city` and `preferences` with `dict.get` defaults, so those are optional;
`name`, `age`, `budget` are only interpolated into the composition prompt.
Budgets come from a step-0.5 number input, so exact rationals model the
Python floats that actually occur. -/
structure UserInfo where
  name : Option String
  city : Option String
  preferences : Option String
  transport : TransportVal
  age : Option Nat
  budget : Option Rat

/-- The langchain `SQLDatabase` handle: `table_info` is what
`get_table_info()` returns, `runQuery` is `run(sql)`, which either returns the
rows rendered as text or fails with the database engine's error message. -/
structure SQLDatabase where
  table_info : String
  runQuery : String → Except String String

/-- Failure surfaced out of a pipeline invocation: a model-call error
(network/auth/quota) or a database error raised by `db.run`. -/
inductive Err
  | modelErr (msg : String)
  | dbErr (msg : String)
deriving DecidableEq

/-- Message text rendered by `except` in `frontend_new.py` for a failed get
of the assistant answer. -/
def errString : Err → String
  | .modelErr m => m
  | .dbErr m => m

/-- External calls made while one pipeline invocation runs. -/
inductive Event
  | schemaFetch (text : String)
  | sqlModelCall
  | composeModelCall
  | dbRun (stmt : String)
deriving DecidableEq

/-- A model call either raises (network error) or yields text; `StrOutputParser`
passes the text through unchanged. -/
def liftModel : Except String String → Except Err String
  | .ok t => .ok t
  | .error e => .error (.modelErr e)

/-- Count of schema fetches (`db.get_table_info()` calls) in an event list. -/
def schemaFetchCount (evs : List Event) : Nat :=
  evs.countP fun e => match e with
    | .schemaFetch _ => true
    | _ => false

/-- The schema texts fetched, in order. -/
def schemaFetchTexts (evs : List Event) : List String :=
  evs.filterMap fun e => match e with
    | .schemaFetch t => some t
    | _ => none

/-- The SQL statements submitted to the database, in order. -/
def dbRunStmts (evs : List Event) : List String :=
  evs.filterMap fun e => match e with
    | .dbRun stmt => some stmt
    | _ => none

namespace Backend

/-- Rendering of the `user_transport_mode` prompt variable,
`backend.py` line 122: a comma-space join when `transport` is a list, the
value itself otherwise; a missing key defaults to the empty list, whose join
is the empty string. -/
def user_transport_value : TransportVal → String
  | .items l => String.intercalate ", " l
  | .single s => s
  | .absent => String.intercalate ", " []

/-- Placeholder assignment of the SQL-synthesis template
(`backend.py` lines 62-100): schema, conversation history, question, the full
`user_info` dict, and the three projected profile fields. -/
structure SqlPromptInput where
  schema : String
  chat_history : List Message
  question : String
  user_info : UserInfo
  user_city : String
  user_transport_mode : String
  user_goal : String

/-- Placeholder assignment of the response-composition template
(`backend.py` lines 151-217): schema, history, question, the full `user_info`
dict, the generated query and the database's textual response. -/
structure ComposePromptInput where
  schema : String
  chat_history : List Message
  question : String
  user_info : UserInfo
  query : String
  response : String

/-- The input dict produced by `RunnablePassthrough.assign` in
`get_sql_chain` (`backend.py` lines 117-124): the schema is fetched from the
database, the profile fields are projected from `user_info` with
`dict.get` defaults. -/
def mkSqlPromptInput (db : SQLDatabase) (question : String)
    (chat_history : List Message) (user_info : UserInfo) : SqlPromptInput :=
  { schema := db.table_info
    chat_history := chat_history
    question := question
    user_info := user_info
    user_city := user_info.city.getD "Unknown"
    user_transport_mode := user_transport_value user_info.transport
    user_goal := user_info.preferences.getD "Unknown" }

/-- Invocation of the chain built by `get_sql_chain` (`backend.py` lines
117-128): fetch the schema, render the synthesis prompt, call the model, parse
its output as a plain string. Returns the raw model text (or the model error)
together with the external-call events. -/
def sql_chain_invoke (db : SQLDatabase)
    (llmSql : SqlPromptInput → Except String String)
    (question : String) (chat_history : List Message) (user_info : UserInfo) :
    Except Err String × List Event :=
  let pin := mkSqlPromptInput db question chat_history user_info
  (liftModel (llmSql pin), [.schemaFetch db.table_info, .sqlModelCall])

/-- Invocation of `get_response` (`backend.py` lines 130-249). The outer
`RunnablePassthrough.assign` fetches the schema again and runs the synthesis
chain; the second `assign` executes the raw query text with `db.run`; the
composition prompt is then rendered and sent to the model, whose text is
returned verbatim through `StrOutputParser`. Any stage failure propagates as
an exception (`Except.error`) without reaching the later stages. `model_name`
selects the hosted model and does not otherwise enter the data flow; the model
calls themselves are the `llmSql`/`llmCompose` parameters. -/
def get_response (user_query : String) (db : SQLDatabase)
    (chat_history : List Message) (model_name : String) (user_info : UserInfo)
    (llmSql : SqlPromptInput → Except String String)
    (llmCompose : ComposePromptInput → Except String String) :
    Except Err String × List Event :=
  let outerSchema := db.table_info
  match sql_chain_invoke db llmSql user_query chat_history user_info with
  | (.error e, evs) => (.error e, .schemaFetch outerSchema :: evs)
  | (.ok query, evs) =>
    match db.runQuery query with
    | .error e => (.error (.dbErr e), .schemaFetch outerSchema :: evs ++ [.dbRun query])
    | .ok resp =>
      let cin : ComposePromptInput :=
        { schema := outerSchema
          chat_history := chat_history
          question := user_query
          user_info := user_info
          query := query
          response := resp }
      (liftModel (llmCompose cin),
       .schemaFetch outerSchema :: evs ++ [.dbRun query, .composeModelCall])

end Backend

namespace App

/-- Placeholder assignment of the SQL-synthesis template in `app.py`
(lines 25-45): schema, conversation history and question only. -/
structure SqlPromptInput where
  schema : String
  chat_history : List Message
  question : String

/-- Placeholder assignment of the response-composition template in `app.py`
(lines 75-84). -/
structure ComposePromptInput where
  schema : String
  chat_history : List Message
  question : String
  query : String
  response : String

/-- Invocation of the chain built by `get_sql_chain` (`app.py` lines 22-67):
fetch the schema, render the prompt, call the model. -/
def sql_chain_invoke (db : SQLDatabase)
    (llmSql : SqlPromptInput → Except String String)
    (question : String) (chat_history : List Message) :
    Except Err String × List Event :=
  let pin : SqlPromptInput :=
    { schema := db.table_info, chat_history := chat_history, question := question }
  (liftModel (llmSql pin), [.schemaFetch db.table_info, .sqlModelCall])

/-- Invocation of `get_response` (`app.py` lines 70-116): generate the query,
then in the second `assign` fetch the schema and execute the raw query with
`db.run`, then compose the final text, returned verbatim. -/
def get_response (user_query : String) (db : SQLDatabase)
    (chat_history : List Message)
    (llmSql : SqlPromptInput → Except String String)
    (llmCompose : ComposePromptInput → Except String String) :
    Except Err String × List Event :=
  match sql_chain_invoke db llmSql user_query chat_history with
  | (.error e, evs) => (.error e, evs)
  | (.ok query, evs) =>
    match db.runQuery query with
    | .error e => (.error (.dbErr e), evs ++ [.schemaFetch db.table_info, .dbRun query])
    | .ok resp =>
      let cin : ComposePromptInput :=
        { schema := db.table_info
          chat_history := chat_history
          question := user_query
          query := query
          response := resp }
      (liftModel (llmCompose cin),
       evs ++ [.schemaFetch db.table_info, .dbRun query, .composeModelCall])

/-- The chat handler in `app.py` lines 165-179: a `None` or whitespace-only
input starts no turn; otherwise the `HumanMessage` is appended first, then
`get_response` runs (an exception propagates, leaving the appended user
message in the history), and on success the `AIMessage` is appended. Result:
the history afterwards, the uncaught exception if any, and the external-call
events. -/
def user_query_handler (user_query : Option String) (db : SQLDatabase)
    (history : List Message)
    (llmSql : SqlPromptInput → Except String String)
    (llmCompose : ComposePromptInput → Except String String) :
    List Message × Option Err × List Event :=
  match user_query with
  | none => (history, none, [])
  | some q =>
    if pyStrip q ≠ "" then
      let h1 := history ++ [Message.human q]
      match get_response q db h1 llmSql llmCompose with
      | (.ok resp, evs) => (h1 ++ [Message.aiMsg resp], none, evs)
      | (.error e, evs) => (h1, some e, evs)
    else (history, none, [])

end App

namespace Frontend

/-- A row of the `users` table created by `frontend.py`/`frontend_new.py`
(username TEXT PRIMARY KEY, password, name, city, preferences,
transport TEXT, age INTEGER, budget REAL); `transport` holds the
comma-joined selection. -/
structure UserRow where
  username : String
  password : String
  name : String
  city : String
  preferences : String
  transport : String
  age : Nat
  budget : Rat
deriving DecidableEq

/-- Errors shown by the account-creation page: duplicate username, or missing
username/password (Python truthiness of the two strings). -/
inductive CreateErr
  | duplicateUser
  | missingFields
deriving DecidableEq

/-- The `Create and Continue to Chatbot` handler of `personal_info_page`
(`frontend.py` lines 93-124, identical in `frontend_new.py` lines 81-112):
require non-empty username and password, reject an existing username
(`SELECT * FROM users WHERE username = ?` finding a row), otherwise insert
exactly one row with the transport list stored as `",".join(transport)`. -/
def personal_info_submit (store : List UserRow)
    (username password name city preferences : String)
    (transport : List String) (age : Nat) (budget : Rat) :
    Except CreateErr (List UserRow) :=
  if username ≠ "" ∧ password ≠ "" then
    if store.any fun r => r.username == username then .error .duplicateUser
    else
      .ok (store ++
        [{ username := username, password := password, name := name,
           city := city, preferences := preferences,
           transport := pyJoinStr ',' transport, age := age, budget := budget }])
  else .error .missingFields

/-- The `Login` handler of `auth_page` (`frontend.py` lines 62-78,
identical in `frontend_new.py` lines 50-66): exact string match on
username+password via `SELECT ... WHERE username = ? AND password = ?`
(`fetchone` returns the first matching row), building `user_info` with the
transport string split on commas. `None` when no row matches. -/
def auth_login (store : List UserRow) (username password : String) :
    Option UserInfo :=
  match store.find? fun r => r.username == username && r.password == password with
  | some r =>
      some { name := some r.name, city := some r.city,
             preferences := some r.preferences,
             transport := .items (pySplitStr ',' r.transport),
             age := some r.age, budget := some r.budget }
  | none => none

/-- The chat handler of `chatbot_page` in `frontend.py` lines 151-176: a
`None` or whitespace-only input starts no turn; otherwise the `HumanMessage`
is appended first, then `backend.get_response` runs (no try/except, so a
raised exception propagates and leaves the appended user message in place),
and only on success is the assistant dict appended. -/
def chatbot_turn (user_query : Option String) (db : SQLDatabase)
    (history : List Message) (model_name : String) (user_info : UserInfo)
    (llmSql : Backend.SqlPromptInput → Except String String)
    (llmCompose : Backend.ComposePromptInput → Except String String) :
    List Message × Option Err × List Event :=
  match user_query with
  | none => (history, none, [])
  | some q =>
    if pyStrip q ≠ "" then
      let h1 := history ++ [Message.human q]
      match Backend.get_response q db h1 model_name user_info llmSql llmCompose with
      | (.ok resp, evs) => (h1 ++ [Message.aiDict resp model_name], none, evs)
      | (.error e, evs) => (h1, some e, evs)
    else (history, none, [])

/-- Error text appended to the history by `frontend_new.py` line 146-148 when
the `get_response` call raises. -/
def newErrorText (e : Err) : String :=
  "Entschuldigung, es ist ein Fehler aufgetreten: " ++ errString e

/-- Warning text appended by `frontend_new.py` lines 151-154 when no database
connection is bound. -/
def noDbText : String :=
  "Bitte verbinden Sie sich zuerst mit einer Datenbank über die Seitenleiste."

/-- The chat handler of `chatbot_page` in `frontend_new.py` lines 116-154.
The input guard covers only the user-message append (the following block is
not inside the `if`); with a database bound, the `get_response` call runs
inside try/except, appending the answer on success and an error message on
failure. In the source the call on line 141 passes three arguments to
`backend.get_response`, which takes five, so it always raises `TypeError`;
we therefore take the call's outcome as the abstract parameter
`callResult`. -/
def chatbot_turn_new (user_query : Option String) (dbPresent : Bool)
    (history : List Message) (callResult : Except Err String) : List Message :=
  let h1 :=
    match user_query with
    | some q => if pyStrip q ≠ "" then history ++ [Message.human q] else history
    | none => history
  if dbPresent then
    match callResult with
    | .ok resp => h1 ++ [Message.aiMsg resp]
    | .error e => h1 ++ [Message.aiMsg (newErrorText e)]
  else h1 ++ [Message.aiMsg noDbText]

end Frontend

/-- Concrete database handle used by closed witnesses and counterexamples. -/
def dbOk : SQLDatabase :=
  { table_info := "CREATE TABLE Products (ProductName TEXT, Price REAL)"
    runQuery := fun _ => .ok "[('Spaghetti', 1.99)]" }

/-- Concrete database handle whose engine rejects every statement. -/
def dbFail : SQLDatabase :=
  { table_info := "CREATE TABLE Products (ProductName TEXT, Price REAL)"
    runQuery := fun _ => .error "no such table: Foo" }

/-- Concrete profile used by closed witnesses and counterexamples. -/
def uiMax : UserInfo :=
  { name := some "Max", city := some "Berlin", preferences := some "Bio",
    transport := .items ["Auto", "Fahrrad"], age := some 30,
    budget := some 50 }

/-- Blank chat input: `None`, or a string whose `strip()` is empty. -/
def blankInput : Option String → Bool
  | none => true
  | some q => pyStrip q == ""

/-- C2: with deterministic stubs — a synthesis model returning the fixed SQL
string `sqlStr` on every prompt and a composition model returning the fixed
text `txt` — and the database accepting that statement, the final output of
`get_response` is exactly `txt`, with nothing further applied to it; this
holds for the profile-aware pipeline in `backend.py` and the base pipeline in
`app.py` alike. -/
theorem stubbed_compose_output_verbatim
    (q : String) (db : SQLDatabase) (hist : List Message) (mn : String)
    (ui : UserInfo) (sqlStr txt rows : String)
    (hrun : db.runQuery sqlStr = .ok rows) :
    (Backend.get_response q db hist mn ui
        (fun _ => .ok sqlStr) (fun _ => .ok txt)).1 = .ok txt ∧
    (App.get_response q db hist
        (fun _ => .ok sqlStr) (fun _ => .ok txt)).1 = .ok txt := by
  constructor
  · simp [Backend.get_response, Backend.sql_chain_invoke, liftModel, hrun]
  · simp [App.get_response, App.sql_chain_invoke, liftModel, hrun]

/-- Witness for C2 at a concrete database, profile and stub pair. -/
theorem stubbed_compose_output_verbatim_witness :
    (Backend.get_response "Frage" dbOk [] "gpt-4" uiMax
        (fun _ => .ok "SELECT 1;") (fun _ => .ok "Antwort")).1 = .ok "Antwort" ∧
    (App.get_response "Frage" dbOk []
        (fun _ => .ok "SELECT 1;") (fun _ => .ok "Antwort")).1 = .ok "Antwort" :=
  stubbed_compose_output_verbatim "Frage" dbOk [] "gpt-4" uiMax
    "SELECT 1;" "Antwort" "[('Spaghetti', 1.99)]" rfl

/-- C3 counterexample: at a concrete input whose database rejects the
statement, `get_response` propagates the database error and the
response-composition model is never called — contradicting the claim that the
composer still runs on the error text. -/
theorem db_error_skips_composer_cex :
    (Backend.get_response "Frage" dbFail [] "gpt-4" uiMax
        (fun _ => .ok "SELECT * FROM Foo;") (fun _ => .ok "Antwort")).1
      = .error (.dbErr "no such table: Foo") ∧
    Event.composeModelCall ∉
      (Backend.get_response "Frage" dbFail [] "gpt-4" uiMax
        (fun _ => .ok "SELECT * FROM Foo;") (fun _ => .ok "Antwort")).2 := by
  constructor
  · rfl
  · decide

/-- C3 amended: when the database rejects the generated statement, the
pipeline does abort before the response-composition stage — no stage
intercepts the error, `get_response` propagates it to the caller, and the
composition model is not invoked for that turn. -/
theorem db_error_propagates_before_composer
    (q : String) (db : SQLDatabase) (hist : List Message) (mn : String)
    (ui : UserInfo)
    (llmSql : Backend.SqlPromptInput → Except String String)
    (llmCompose : Backend.ComposePromptInput → Except String String)
    (sqlStr errMsg : String)
    (hsql : llmSql (Backend.mkSqlPromptInput db q hist ui) = .ok sqlStr)
    (hrun : db.runQuery sqlStr = .error errMsg) :
    (Backend.get_response q db hist mn ui llmSql llmCompose).1
      = .error (.dbErr errMsg) ∧
    Event.composeModelCall ∉
      (Backend.get_response q db hist mn ui llmSql llmCompose).2 := by
  constructor
  · simp [Backend.get_response, Backend.sql_chain_invoke, liftModel, hsql, hrun]
  · simp [Backend.get_response, Backend.sql_chain_invoke, liftModel, hsql, hrun]

/-- Witness for C3's amended theorem at a concrete failing database. -/
theorem db_error_propagates_before_composer_witness :
    (Backend.get_response "Frage" dbFail [] "gpt-4" uiMax
        (fun _ => .ok "SELECT 2;") (fun _ => .ok "Antwort")).1
      = .error (.dbErr "no such table: Foo") ∧
    Event.composeModelCall ∉
      (Backend.get_response "Frage" dbFail [] "gpt-4" uiMax
        (fun _ => .ok "SELECT 2;") (fun _ => .ok "Antwort")).2 :=
  db_error_propagates_before_composer "Frage" dbFail [] "gpt-4" uiMax
    (fun _ => .ok "SELECT 2;") (fun _ => .ok "Antwort")
    "SELECT 2;" "no such table: Foo" rfl rfl

/-- C6: the transport field rendered into the synthesis prompt is the
comma-space join of the profile's transport value when that value is a list,
and the value itself when it is a non-list string; in particular the two
concrete instances from the spec. -/
theorem transport_field_projection :
    (∀ (db : SQLDatabase) (q : String) (hist : List Message) (ui : UserInfo)
        (l : List String), ui.transport = .items l →
        (Backend.mkSqlPromptInput db q hist ui).user_transport_mode
          = String.intercalate ", " l) ∧
    (∀ (db : SQLDatabase) (q : String) (hist : List Message) (ui : UserInfo)
        (s : String), ui.transport = .single s →
        (Backend.mkSqlPromptInput db q hist ui).user_transport_mode = s) ∧
    Backend.user_transport_value (.items ["Auto", "Fahrrad"]) = "Auto, Fahrrad" ∧
    Backend.user_transport_value (.single "Auto") = "Auto" := by
  refine ⟨?_, ?_, by decide, rfl⟩
  · intro db q hist ui l h
    simp [Backend.mkSqlPromptInput, Backend.user_transport_value, h]
  · intro db q hist ui s h
    simp [Backend.mkSqlPromptInput, Backend.user_transport_value, h]

/-- Witness for C6 at the concrete profile of the spec's example. -/
theorem transport_field_projection_witness :
    (Backend.mkSqlPromptInput dbOk "Frage" [] uiMax).user_transport_mode
      = String.intercalate ", " ["Auto", "Fahrrad"] :=
  transport_field_projection.1 dbOk "Frage" [] uiMax ["Auto", "Fahrrad"] rfl

/-- C8: every successful `get_response` run fetches the schema from the
database rather than a cache: two `get_table_info` round trips per turn (one
in the synthesis chain, one in the outer chain — exactly one more than the
single fetch a turn minimally needs), and every fetched text is the database's
current schema, so the prompts always see the current schema. -/
theorem schema_refetched_every_turn
    (q : String) (db : SQLDatabase) (hist : List Message) (mn : String)
    (ui : UserInfo)
    (llmSql : Backend.SqlPromptInput → Except String String)
    (llmCompose : Backend.ComposePromptInput → Except String String)
    (t : String)
    (hok : (Backend.get_response q db hist mn ui llmSql llmCompose).1 = .ok t) :
    schemaFetchCount (Backend.get_response q db hist mn ui llmSql llmCompose).2 = 2 ∧
    schemaFetchTexts (Backend.get_response q db hist mn ui llmSql llmCompose).2
      = [db.table_info, db.table_info] ∧
    (Backend.mkSqlPromptInput db q hist ui).schema = db.table_info := by
  cases hS : llmSql (Backend.mkSqlPromptInput db q hist ui) with
  | error e =>
      exfalso
      simp [Backend.get_response, Backend.sql_chain_invoke, liftModel, hS] at hok
  | ok sqlStr =>
      cases hR : db.runQuery sqlStr with
      | error e =>
          exfalso
          simp [Backend.get_response, Backend.sql_chain_invoke, liftModel, hS, hR] at hok
      | ok rows =>
          refine ⟨?_, ?_, rfl⟩ <;>
            simp [Backend.get_response, Backend.sql_chain_invoke, liftModel, hS, hR,
              schemaFetchCount, schemaFetchTexts]

/-- Witness for C8 at a concrete database and stub pair. -/
theorem schema_refetched_every_turn_witness :
    schemaFetchCount (Backend.get_response "Frage" dbOk [] "gpt-4" uiMax
        (fun _ => .ok "SELECT 1;") (fun _ => .ok "Antwort")).2 = 2 ∧
    schemaFetchTexts (Backend.get_response "Frage" dbOk [] "gpt-4" uiMax
        (fun _ => .ok "SELECT 1;") (fun _ => .ok "Antwort")).2
      = [dbOk.table_info, dbOk.table_info] ∧
    (Backend.mkSqlPromptInput dbOk "Frage" [] uiMax).schema = dbOk.table_info :=
  schema_refetched_every_turn "Frage" dbOk [] "gpt-4" uiMax
    (fun _ => .ok "SELECT 1;") (fun _ => .ok "Antwort") "Antwort" rfl

/-- C10: a `None` or whitespace-only chat input starts no turn in the
handlers of `frontend.py` and `app.py`: the history is returned unchanged, no
exception escapes, and no external call (model or database) happens. -/
theorem blank_input_starts_no_turn
    (uq : Option String) (db : SQLDatabase) (hist : List Message) (mn : String)
    (ui : UserInfo)
    (lS : Backend.SqlPromptInput → Except String String)
    (lC : Backend.ComposePromptInput → Except String String)
    (lS2 : App.SqlPromptInput → Except String String)
    (lC2 : App.ComposePromptInput → Except String String)
    (h : blankInput uq = true) :
    Frontend.chatbot_turn uq db hist mn ui lS lC = (hist, none, []) ∧
    App.user_query_handler uq db hist lS2 lC2 = (hist, none, []) := by
  cases uq with
  | none => exact ⟨rfl, rfl⟩
  | some q =>
      have hq : pyStrip q = "" := by simpa [blankInput] using h
      constructor
      · simp [Frontend.chatbot_turn, hq]
      · simp [App.user_query_handler, hq]

/-- Witness for C10 at a whitespace-only input. -/
theorem blank_input_starts_no_turn_witness :
    Frontend.chatbot_turn (some "  \n ") dbOk [] "gpt-4" uiMax
        (fun _ => .ok "SELECT 1;") (fun _ => .ok "Antwort")
      = ([], none, []) ∧
    App.user_query_handler (some "  \n ") dbOk []
        (fun _ => .ok "SELECT 1;") (fun _ => .ok "Antwort")
      = ([], none, []) :=
  blank_input_starts_no_turn (some "  \n ") dbOk [] "gpt-4" uiMax
    (fun _ => .ok "SELECT 1;") (fun _ => .ok "Antwort")
    (fun _ => .ok "SELECT 1;") (fun _ => .ok "Antwort") (by decide)

/-- C1 counterexample: a concrete turn in which the synthesis model call
raises. The history before the turn is empty; after the failed attempt it
holds the user's message — its length changed from 0 to 1, so the history is
not unchanged on failure. -/
theorem failed_turn_mutates_history_cex :
    (Frontend.chatbot_turn (some "Hallo") dbOk [] "gpt-4" uiMax
        (fun _ => .error "model unavailable") (fun _ => .ok "x")).1
      = [Message.human "Hallo"] ∧
    (Frontend.chatbot_turn (some "Hallo") dbOk [] "gpt-4" uiMax
        (fun _ => .error "model unavailable") (fun _ => .ok "x")).2.1
      = some (.modelErr "model unavailable") ∧
    [Message.human "Hallo"] ≠ ([] : List Message) := by
  refine ⟨by decide, by decide, by decide⟩

/-- C1 amended: the user's question is appended to the history before the
pipeline runs, so a turn in which a stage raises leaves the history equal to
the prior history plus the user message (`frontend.py`); the assistant entry
is appended only when the whole pipeline succeeds; `frontend_new.py`
additionally appends an assistant-visible error entry on failure. -/
theorem history_on_failure_gains_user_message :
    (∀ (q : String) (db : SQLDatabase) (hist : List Message) (mn : String)
        (ui : UserInfo) (lS : Backend.SqlPromptInput → Except String String)
        (lC : Backend.ComposePromptInput → Except String String)
        (e : Err) (evs : List Event), pyStrip q ≠ "" →
        Backend.get_response q db (hist ++ [Message.human q]) mn ui lS lC
          = (.error e, evs) →
        Frontend.chatbot_turn (some q) db hist mn ui lS lC
          = (hist ++ [Message.human q], some e, evs)) ∧
    (∀ (q : String) (db : SQLDatabase) (hist : List Message) (mn : String)
        (ui : UserInfo) (lS : Backend.SqlPromptInput → Except String String)
        (lC : Backend.ComposePromptInput → Except String String)
        (r : String) (evs : List Event), pyStrip q ≠ "" →
        Backend.get_response q db (hist ++ [Message.human q]) mn ui lS lC
          = (.ok r, evs) →
        Frontend.chatbot_turn (some q) db hist mn ui lS lC
          = (hist ++ [Message.human q, Message.aiDict r mn], none, evs)) ∧
    (∀ (q : String) (hist : List Message) (e : Err), pyStrip q ≠ "" →
        Frontend.chatbot_turn_new (some q) true hist (.error e)
          = hist ++ [Message.human q, Message.aiMsg (Frontend.newErrorText e)]) := by
  refine ⟨?_, ?_, ?_⟩
  · intro q db hist mn ui lS lC e evs hq hfail
    simp [Frontend.chatbot_turn, hq, hfail]
  · intro q db hist mn ui lS lC r evs hq hok
    simp [Frontend.chatbot_turn, hq, hok]
  · intro q hist e hq
    simp [Frontend.chatbot_turn_new, hq]

/-- Witness for C1's amended theorem at a concrete failing model call. -/
theorem history_on_failure_gains_user_message_witness :
    Frontend.chatbot_turn (some "Hallo") dbOk [] "gpt-4" uiMax
        (fun _ => .error "boom") (fun _ => .ok "x")
      = ([Message.human "Hallo"], some (.modelErr "boom"),
         [.schemaFetch dbOk.table_info, .schemaFetch dbOk.table_info,
          .sqlModelCall]) :=
  history_on_failure_gains_user_message.1 "Hallo" dbOk [] "gpt-4" uiMax
    (fun _ => .error "boom") (fun _ => .ok "x")
    (.modelErr "boom")
    [.schemaFetch dbOk.table_info, .schemaFetch dbOk.table_info, .sqlModelCall]
    (by decide) (by decide)

/-- C7 counterexample: with an empty credential store (so no row with
username `max` exists), creating an account with username `max` and an empty
password is rejected with the missing-fields error rather than succeeding —
the claim's `succeeds whenever no row with that username exists` is false
without the non-empty username/password guard. -/
theorem create_account_needs_password_cex :
    (∀ r ∈ ([] : List Frontend.UserRow), r.username ≠ "max") ∧
    Frontend.personal_info_submit [] "max" "" "Max" "Berlin" "Bio" ["Car"] 30 50
      = .error .missingFields := by
  refine ⟨by decide, by decide⟩

/-- C7 amended: for every non-empty username and non-empty password, account
creation succeeds when no row with that username exists and inserts exactly
one row (the store becomes the old store plus that single row); a second
creation attempt with the same username (any non-empty password and any
profile fields) is rejected with the duplicate error, so no second insert
happens and the first row is preserved in the returned store. -/
theorem duplicate_account_rejected
    (store : List Frontend.UserRow) (u p n c pr : String)
    (tr : List String) (a : Nat) (b : Rat)
    (p2 n2 c2 pr2 : String) (tr2 : List String) (a2 : Nat) (b2 : Rat)
    (hu : u ≠ "") (hp : p ≠ "") (hp2 : p2 ≠ "")
    (hfresh : ∀ r ∈ store, r.username ≠ u) :
    Frontend.personal_info_submit store u p n c pr tr a b
      = .ok (store ++
          [{ username := u, password := p, name := n, city := c,
             preferences := pr, transport := pyJoinStr ',' tr,
             age := a, budget := b }]) ∧
    (∀ st, Frontend.personal_info_submit store u p n c pr tr a b = .ok st →
        Frontend.personal_info_submit st u p2 n2 c2 pr2 tr2 a2 b2
          = .error .duplicateUser) := by
  have hany : (store.any fun r => r.username == u) = false := by
    simp only [List.any_eq_false]
    intro r hr
    simpa using hfresh r hr
  have hfirst :
      Frontend.personal_info_submit store u p n c pr tr a b
        = .ok (store ++
            [{ username := u, password := p, name := n, city := c,
               preferences := pr, transport := pyJoinStr ',' tr,
               age := a, budget := b }]) := by
    simp [Frontend.personal_info_submit, hu, hp, hany]
  refine ⟨hfirst, ?_⟩
  intro st hst
  rw [hfirst] at hst
  cases hst
  simp [Frontend.personal_info_submit, hu, hp2]

/-- Witness for C7's amended theorem at a concrete pair of creation calls. -/
theorem duplicate_account_rejected_witness :
    Frontend.personal_info_submit [] "max" "pw" "Max" "Berlin" "Bio" ["Car"] 30 50
      = .ok [{ username := "max", password := "pw", name := "Max",
               city := "Berlin", preferences := "Bio",
               transport := pyJoinStr ',' ["Car"], age := 30, budget := 50 }] ∧
    (∀ st,
      Frontend.personal_info_submit [] "max" "pw" "Max" "Berlin" "Bio" ["Car"] 30 50
        = .ok st →
      Frontend.personal_info_submit st "max" "pw2" "Moritz" "Ulm" "" ["Bus"] 20 10
        = .error .duplicateUser) :=
  duplicate_account_rejected [] "max" "pw" "Max" "Berlin" "Bio" ["Car"] 30 50
    "pw2" "Moritz" "Ulm" "" ["Bus"] 20 10
    (by decide) (by decide) (by decide) (by decide)

/-- C5 counterexample: at a concrete input where the synthesis stub returns a
fenced SQL string, the statement submitted to the database is the raw model
output, which differs from its sanitized form — so the sanitized string is
not what is submitted. -/
theorem raw_output_submitted_cex :
    dbRunStmts (Backend.get_response "Frage" dbOk [] "gpt-4" uiMax
        (fun _ => .ok "```sql\nSELECT 1;\n```") (fun _ => .ok "Antwort")).2
      = ["```sql\nSELECT 1;\n```"] ∧
    sanitize "```sql\nSELECT 1;\n```" ≠ "```sql\nSELECT 1;\n```" := by
  refine ⟨by decide, by decide⟩

/-- C5 amended: the spec-modelled sanitizer removes the code fence and
collapses whitespace exactly as the two examples state, but `get_response`
submits the synthesizer's raw output to the database unchanged — no
sanitization is applied between synthesis and execution in the source. -/
theorem sanitizer_examples_raw_submitted :
    sanitize "```sql\nSELECT 1;\n```" = "SELECT 1;" ∧
    sanitize "SELECT   1\n\nFROM  t" = "SELECT 1 FROM t" ∧
    (∀ (q : String) (db : SQLDatabase) (hist : List Message) (mn : String)
        (ui : UserInfo)
        (lC : Backend.ComposePromptInput → Except String String)
        (sqlRaw : String),
        dbRunStmts (Backend.get_response q db hist mn ui
            (fun _ => .ok sqlRaw) lC).2 = [sqlRaw]) := by
  refine ⟨by decide, by decide, ?_⟩
  intro q db hist mn ui lC sqlRaw
  cases hR : db.runQuery sqlRaw with
  | error e =>
      simp [Backend.get_response, Backend.sql_chain_invoke, liftModel, hR, dbRunStmts]
  | ok rows =>
      simp [Backend.get_response, Backend.sql_chain_invoke, liftModel, hR, dbRunStmts]

theorem pySplitAux_no_sep (sep : Char) (w : List Char) :
    ∀ acc, sep ∉ w → pySplitAux sep acc w = [acc.reverse ++ w] := by
  induction w with
  | nil => intro acc _; simp [pySplitAux]
  | cons c cs ih =>
      intro acc hw
      have hc : ¬ c = sep := fun h => hw (h ▸ List.mem_cons_self c cs)
      rw [pySplitAux, if_neg hc, ih (c :: acc) (fun h => hw (List.mem_cons_of_mem c h))]
      simp

theorem pySplitAux_sep_append (sep : Char) (w rest : List Char) :
    ∀ acc, sep ∉ w →
    pySplitAux sep acc (w ++ sep :: rest)
      = (acc.reverse ++ w) :: pySplitAux sep [] rest := by
  induction w with
  | nil => intro acc _; simp [pySplitAux]
  | cons c cs ih =>
      intro acc hw
      have hc : ¬ c = sep := fun h => hw (h ▸ List.mem_cons_self c cs)
      rw [List.cons_append, pySplitAux, if_neg hc,
        ih (c :: acc) (fun h => hw (List.mem_cons_of_mem c h))]
      simp

theorem pySplit_pyJoin (sep : Char) :
    ∀ l : List (List Char), l ≠ [] → (∀ w ∈ l, sep ∉ w) →
    pySplit sep (pyJoin sep l) = l := by
  intro l
  induction l with
  | nil => intro h; exact absurd rfl h
  | cons w ws ih =>
      intro _ hfree
      cases ws with
      | nil =>
          have := pySplitAux_no_sep sep w [] (hfree w (List.mem_cons_self w []))
          simpa [pyJoin, pySplit] using this
      | cons w2 ws2 =>
          have hjoin : pyJoin sep (w :: w2 :: ws2)
              = w ++ sep :: pyJoin sep (w2 :: ws2) := rfl
          rw [pySplit, hjoin,
            pySplitAux_sep_append sep w _ []
              (hfree w (List.mem_cons_self w (w2 :: ws2)))]
          have htail := ih (by simp) (fun x hx => hfree x (List.mem_cons_of_mem w hx))
          rw [pySplit] at htail
          simp [htail]

theorem pySplitStr_pyJoinStr (l : List String) (hne : l ≠ [])
    (hfree : ∀ w ∈ l, ',' ∉ w.data) :
    pySplitStr ',' (pyJoinStr ',' l) = l := by
  have hmk : ∀ s : String, (⟨s.data⟩ : String) = s := fun _ => rfl
  have hmapfree : ∀ w ∈ l.map String.data, ',' ∉ w := by
    intro w hw
    rcases List.mem_map.mp hw with ⟨s, hs, rfl⟩
    exact hfree s hs
  have hmapne : l.map String.data ≠ [] := by simpa using hne
  unfold pySplitStr pyJoinStr
  rw [show (⟨pyJoin ',' (l.map String.data)⟩ : String).data
        = pyJoin ',' (l.map String.data) from rfl]
  rw [pySplit_pyJoin ',' (l.map String.data) hmapne hmapfree, List.map_map]
  have hcomp : ((fun cs => (⟨cs⟩ : String)) ∘ String.data) = id :=
    funext fun s => hmk s
  rw [hcomp, List.map_id]

/-- C9: the transport selection is stored comma-joined at account creation
and recovered by splitting on commas at login; for every non-empty list of
comma-free entries the round trip is the identity, while the empty selection
joins to the empty string, which splits back to the one-element list holding
the empty string — so the round trip fails exactly on the empty selection. -/
theorem transport_join_split_roundtrip :
    (∀ l : List String, l ≠ [] → (∀ w ∈ l, ',' ∉ w.data) →
        pySplitStr ',' (pyJoinStr ',' l) = l) ∧
    pySplitStr ',' (pyJoinStr ',' ([] : List String)) = [""] ∧
    ([""] : List String) ≠ [] ∧
    (∀ (u p n c pr : String) (l : List String) (a : Nat) (b : Rat)
        (st : List Frontend.UserRow),
        Frontend.personal_info_submit [] u p n c pr l a b = .ok st →
        ∃ ui, Frontend.auth_login st u p = some ui ∧
          ui.transport = .items (pySplitStr ',' (pyJoinStr ',' l))) := by
  refine ⟨fun l => pySplitStr_pyJoinStr l, by decide, by decide, ?_⟩
  intro u p n c pr l a b st hst
  unfold Frontend.personal_info_submit at hst
  by_cases hguard : u ≠ "" ∧ p ≠ ""
  · rw [if_pos hguard] at hst
    simp only [List.any_nil, Bool.false_eq_true, if_false] at hst
    cases hst
    refine ⟨{ name := some n, city := some c, preferences := some pr,
              transport := .items (pySplitStr ',' (pyJoinStr ',' l)),
              age := some a, budget := some b }, ?_, rfl⟩
    simp [Frontend.auth_login, List.find?]
  · rw [if_neg hguard] at hst
    exact absurd hst (by simp)

/-- Witness for C9 at a concrete comma-free selection. -/
theorem transport_join_split_roundtrip_witness :
    pySplitStr ',' (pyJoinStr ',' ["Car", "Bus"]) = ["Car", "Bus"] :=
  transport_join_split_roundtrip.1 ["Car", "Bus"] (by decide) (by decide)

theorem startsBt_cons (c : Char) (t : List Char) :
    startsBt (c :: t) = decide (c = btick) := rfl

theorem startsBtBt_cons (c : Char) (t : List Char) :
    startsBtBt (c :: t) = (decide (c = btick) && startsBt t) := by
  cases t <;> simp [startsBtBt, startsBt]

theorem hasTriple_cons (c : Char) (t : List Char) :
    hasTriple (c :: t) = ((decide (c = btick) && startsBtBt t) || hasTriple t) := rfl

theorem hasTriple_cons_of (c : Char) (t : List Char)
    (h : hasTriple t = true) : hasTriple (c :: t) = true := by
  simp [hasTriple_cons, h]

theorem startsBt_removeAllFences (s : List Char)
    (h : startsBt (removeAllFences s) = true) : startsBt s = true := by
  induction s using removeAllFences.induct with
  | case1 => simpa [removeAllFences] using h
  | case2 c => simpa [removeAllFences] using h
  | case3 c d => simpa [removeAllFences] using h
  | case4 c d e rest htrip ih =>
      simp [startsBt_cons, htrip.1]
  | case5 c d e rest htrip ih =>
      rw [removeAllFences, if_neg htrip] at h
      simpa [startsBt_cons] using h

theorem startsBtBt_removeAllFences (s : List Char)
    (h : startsBtBt (removeAllFences s) = true) : startsBtBt s = true := by
  induction s using removeAllFences.induct with
  | case1 => simpa [removeAllFences] using h
  | case2 c => simpa [removeAllFences] using h
  | case3 c d => simpa [removeAllFences] using h
  | case4 c d e rest htrip ih =>
      simp [startsBtBt_cons, startsBt_cons, htrip.1, htrip.2.1]
  | case5 c d e rest htrip ih =>
      rw [removeAllFences, if_neg htrip, startsBtBt_cons] at h
      simp only [Bool.and_eq_true] at h
      obtain ⟨hc, hd⟩ := h
      have hd2 := startsBt_removeAllFences _ hd
      rw [startsBt_cons] at hd2
      simp [startsBtBt, hc, hd2]

theorem hasTriple_removeAllFences (s : List Char) :
    hasTriple (removeAllFences s) = false := by
  induction s using removeAllFences.induct with
  | case1 => rfl
  | case2 c => simp [removeAllFences, hasTriple, startsBtBt]
  | case3 c d => simp [removeAllFences, hasTriple, startsBtBt]
  | case4 c d e rest htrip ih =>
      rw [removeAllFences, if_pos htrip]
      exact ih
  | case5 c d e rest htrip ih =>
      rw [removeAllFences, if_neg htrip, hasTriple_cons]
      rw [ih, Bool.or_false]
      by_cases hbb : startsBtBt (removeAllFences (d :: e :: rest)) = true
      · have h2 := startsBtBt_removeAllFences _ hbb
        rw [startsBtBt_cons, startsBt_cons] at h2
        simp only [Bool.and_eq_true] at h2
        obtain ⟨hd, he⟩ := h2
        have hcne : ¬ c = btick := fun hc =>
          htrip ⟨hc, of_decide_eq_true hd, of_decide_eq_true he⟩
        simp [hcne]
      · simp [Bool.eq_false_iff.mpr hbb]

theorem removeAllFences_eq_self (s : List Char)
    (h : hasTriple s = false) : removeAllFences s = s := by
  induction s using removeAllFences.induct with
  | case1 => rfl
  | case2 c => rfl
  | case3 c d => rfl
  | case4 c d e rest htrip ih =>
      exfalso
      rw [hasTriple_cons, startsBtBt_cons, startsBt_cons] at h
      simp [htrip.1, htrip.2.1, htrip.2.2] at h
  | case5 c d e rest htrip ih =>
      rw [hasTriple_cons, Bool.or_eq_false_iff] at h
      rw [removeAllFences, if_neg htrip, ih h.2]

theorem dropOpeningFence_eq_self (s : List Char)
    (h : hasTriple s = false) : dropOpeningFence s = s := by
  unfold dropOpeningFence
  split
  · rename_i c d e rest
    split
    · rename_i htrip
      exfalso
      rw [hasTriple_cons, startsBtBt_cons, startsBt_cons] at h
      simp [htrip.1, htrip.2.1, htrip.2.2] at h
    · rfl
  · rfl

theorem hasTriple_append3 (xs ys : List Char) :
    hasTriple (xs ++ btick :: btick :: btick :: ys) = true := by
  induction xs with
  | nil => simp [hasTriple_cons, startsBtBt_cons, startsBt_cons]
  | cons x xs ih => simpa [hasTriple_cons] using Or.inr ih

theorem startsBtBt_shape (t : List Char) (h : startsBtBt t = true) :
    ∃ r, t = btick :: btick :: r := by
  match t with
  | [] => exact absurd h (by simp [startsBtBt])
  | [c] => exact absurd h (by simp [startsBtBt])
  | c :: d :: r =>
      simp only [startsBtBt, Bool.and_eq_true] at h
      obtain ⟨hc, hd⟩ := h
      exact ⟨r, by rw [of_decide_eq_true hc, of_decide_eq_true hd]⟩

theorem hasTriple_iff_append (t : List Char) :
    hasTriple t = true ↔ ∃ xs ys, t = xs ++ btick :: btick :: btick :: ys := by
  constructor
  · intro h
    induction t with
    | nil => exact absurd h (by simp [hasTriple])
    | cons c cs ih =>
        rw [hasTriple_cons] at h
        simp only [Bool.or_eq_true, Bool.and_eq_true] at h
        rcases h with ⟨hc, hbb⟩ | h2
        · rcases startsBtBt_shape cs hbb with ⟨r, rfl⟩
          exact ⟨[], r, by rw [of_decide_eq_true hc]; rfl⟩
        · rcases ih h2 with ⟨xs, ys, rfl⟩
          exact ⟨c :: xs, ys, rfl⟩
  · rintro ⟨xs, ys, rfl⟩
    exact hasTriple_append3 xs ys

theorem dropTrailingFence_eq_self (s : List Char)
    (h : hasTriple s = false) : dropTrailingFence s = s := by
  unfold dropTrailingFence
  split
  · rename_i c d e rest hrev
    split
    · rename_i htrip
      exfalso
      have hs : s = rest.reverse ++ btick :: btick :: btick :: [] := by
        have := congrArg List.reverse hrev
        rw [List.reverse_reverse] at this
        rw [this, htrip.1, htrip.2.1, htrip.2.2]
        simp
      rw [hs, hasTriple_append3] at h
      exact Bool.noConfusion h
    · rfl
  · rfl

theorem isWs_space : isWs ' ' = true := by decide

theorem space_ne_btick : (' ' : Char) ≠ btick := by decide

theorem trim_decomp (s : List Char) :
    ∃ pre post, s = pre ++ trimChars s ++ post := by
  refine ⟨s.takeWhile isWs, ((s.dropWhile isWs).reverse.takeWhile isWs).reverse, ?_⟩
  have h1 : s = s.takeWhile isWs ++ s.dropWhile isWs :=
    (List.takeWhile_append_dropWhile isWs s).symm
  have h2 : (s.dropWhile isWs).reverse
      = (s.dropWhile isWs).reverse.takeWhile isWs
        ++ (s.dropWhile isWs).reverse.dropWhile isWs :=
    (List.takeWhile_append_dropWhile isWs (s.dropWhile isWs).reverse).symm
  have h3 : s.dropWhile isWs
      = trimChars s ++ ((s.dropWhile isWs).reverse.takeWhile isWs).reverse := by
    have h4 := congrArg List.reverse h2
    rw [List.reverse_reverse, List.reverse_append] at h4
    rw [trimChars]
    exact h4
  calc s = s.takeWhile isWs ++ s.dropWhile isWs := h1
    _ = s.takeWhile isWs
        ++ (trimChars s ++ ((s.dropWhile isWs).reverse.takeWhile isWs).reverse) := by
        rw [← h3]
    _ = s.takeWhile isWs ++ trimChars s
        ++ ((s.dropWhile isWs).reverse.takeWhile isWs).reverse := by
        rw [List.append_assoc]

theorem hasTriple_trim (s : List Char)
    (h : hasTriple (trimChars s) = true) : hasTriple s = true := by
  rcases trim_decomp s with ⟨pre, post, hs⟩
  rcases (hasTriple_iff_append _).mp h with ⟨xs, ys, hx⟩
  rw [hs, hx]
  rw [show pre ++ (xs ++ btick :: btick :: btick :: ys) ++ post
      = (pre ++ xs) ++ btick :: btick :: btick :: (ys ++ post) by
      simp [List.append_assoc]]
  exact hasTriple_append3 _ _

theorem startsBt_collapseAux (s : List Char)
    (h : startsBt (collapseAux false s) = true) : startsBt s = true := by
  cases s with
  | nil => exact absurd h (by simp [collapseAux, startsBt])
  | cons c cs =>
      by_cases hw : isWs c = true
      · exfalso
        rw [show collapseAux false (c :: cs) = ' ' :: collapseAux true cs by
            simp [collapseAux, hw], startsBt_cons] at h
        exact absurd (of_decide_eq_true h) space_ne_btick
      · rw [show collapseAux false (c :: cs) = c :: collapseAux false cs by
            simp [collapseAux, hw], startsBt_cons] at h
        rw [startsBt_cons]
        exact h

theorem startsBtBt_collapseAux (s : List Char)
    (h : startsBtBt (collapseAux false s) = true) : startsBtBt s = true := by
  cases s with
  | nil => exact absurd h (by simp [collapseAux, startsBtBt])
  | cons c cs =>
      by_cases hw : isWs c = true
      · exfalso
        rw [show collapseAux false (c :: cs) = ' ' :: collapseAux true cs by
            simp [collapseAux, hw], startsBtBt_cons] at h
        simp only [Bool.and_eq_true] at h
        exact absurd (of_decide_eq_true h.1) space_ne_btick
      · rw [show collapseAux false (c :: cs) = c :: collapseAux false cs by
            simp [collapseAux, hw], startsBtBt_cons] at h
        simp only [Bool.and_eq_true] at h
        have h2 := startsBt_collapseAux cs h.2
        rw [startsBtBt_cons]
        simp [h.1, h2]

theorem hasTriple_collapseAux (s : List Char) :
    ∀ b, hasTriple (collapseAux b s) = true → hasTriple s = true := by
  induction s with
  | nil => intro b h; simpa [collapseAux] using h
  | cons c cs ih =>
      intro b h
      by_cases hw : isWs c = true
      · cases b with
        | true =>
            rw [show collapseAux true (c :: cs) = collapseAux true cs by
                simp [collapseAux, hw]] at h
            exact hasTriple_cons_of c cs (ih true h)
        | false =>
            rw [show collapseAux false (c :: cs) = ' ' :: collapseAux true cs by
                simp [collapseAux, hw], hasTriple_cons] at h
            simp only [Bool.or_eq_true, Bool.and_eq_true] at h
            rcases h with ⟨hsp, _⟩ | h2
            · exact absurd (of_decide_eq_true hsp) space_ne_btick
            · exact hasTriple_cons_of c cs (ih true h2)
      · rw [show collapseAux b (c :: cs) = c :: collapseAux false cs by
            simp [collapseAux, hw], hasTriple_cons] at h
        simp only [Bool.or_eq_true, Bool.and_eq_true] at h
        rcases h with ⟨hc, hbb⟩ | h2
        · have h3 := startsBtBt_collapseAux cs hbb
          rw [hasTriple_cons]
          simp [hc, h3]
        · exact hasTriple_cons_of c cs (ih false h2)

theorem collapseAux_idem (s : List Char) :
    (∀ b, collapseAux false (collapseAux b s) = collapseAux b s) ∧
    collapseAux true (collapseAux true s) = collapseAux true s := by
  induction s with
  | nil => exact ⟨fun _ => rfl, rfl⟩
  | cons c cs ih =>
      by_cases hw : isWs c = true
      · constructor
        · intro b
          cases b with
          | true =>
              rw [show collapseAux true (c :: cs) = collapseAux true cs by
                  simp [collapseAux, hw]]
              exact ih.1 true
          | false =>
              rw [show collapseAux false (c :: cs) = ' ' :: collapseAux true cs by
                  simp [collapseAux, hw]]
              rw [show collapseAux false (' ' :: collapseAux true cs)
                  = ' ' :: collapseAux true (collapseAux true cs) by
                  simp [collapseAux, isWs_space]]
              rw [ih.2]
        · rw [show collapseAux true (c :: cs) = collapseAux true cs by
              simp [collapseAux, hw]]
          exact ih.2
      · constructor
        · intro b
          rw [show collapseAux b (c :: cs) = c :: collapseAux false cs by
              simp [collapseAux, hw]]
          rw [show collapseAux false (c :: collapseAux false cs)
              = c :: collapseAux false (collapseAux false cs) by
              simp [collapseAux, hw]]
          rw [ih.1 false]
        · rw [show collapseAux true (c :: cs) = c :: collapseAux false cs by
              simp [collapseAux, hw]]
          rw [show collapseAux true (c :: collapseAux false cs)
              = c :: collapseAux false (collapseAux false cs) by
              simp [collapseAux, hw]]
          rw [ih.1 false]

theorem dropWhile_head_not (p : Char → Bool) (l : List Char) (c : Char)
    (h : (l.dropWhile p).head? = some c) : p c = false := by
  induction l with
  | nil => simp at h
  | cons a t ih =>
      by_cases hp : p a = true
      · rw [List.dropWhile_cons, if_pos hp] at h
        exact ih h
      · rw [List.dropWhile_cons, if_neg hp] at h
        simp only [List.head?_cons, Option.some.injEq] at h
        subst h
        exact Bool.eq_false_iff.mpr hp

theorem dropWhile_eq_self_of_head (p : Char → Bool) (l : List Char)
    (h : ∀ c, l.head? = some c → p c = false) : l.dropWhile p = l := by
  cases l with
  | nil => rfl
  | cons a t =>
      have ha := h a rfl
      rw [List.dropWhile_cons, if_neg (by simp [ha])]

theorem collapse_head (t : List Char) (c : Char)
    (h : t.head? = some c) (hc : isWs c = false) :
    (collapseAux false t).head? = some c := by
  cases t with
  | nil => simp at h
  | cons a r =>
      simp only [List.head?_cons, Option.some.injEq] at h
      subst h
      rw [show collapseAux false (a :: r) = a :: collapseAux false r by
          simp [collapseAux, hc]]
      rfl

theorem collapse_getLast (t : List Char) :
    ∀ (b : Bool) (c : Char), t.getLast? = some c → isWs c = false →
    (collapseAux b t).getLast? = some c := by
  induction t with
  | nil => intro b c h _; simp at h
  | cons a r ih =>
      intro b c h hc
      cases r with
      | nil =>
          simp only [List.getLast?_singleton, Option.some.injEq] at h
          subst h
          rw [show collapseAux b [a] = [a] by
              cases b <;> simp [collapseAux, hc]]
          simp
      | cons r0 rs =>
          have htail : (r0 :: rs).getLast? = some c := by
            rw [List.getLast?_cons_cons] at h
            exact h
          by_cases hw : isWs a = true
          · cases b with
            | true =>
                rw [show collapseAux true (a :: r0 :: rs)
                    = collapseAux true (r0 :: rs) by simp [collapseAux, hw]]
                exact ih true c htail hc
            | false =>
                rw [show collapseAux false (a :: r0 :: rs)
                    = ' ' :: collapseAux true (r0 :: rs) by simp [collapseAux, hw]]
                have hx := ih true c htail hc
                cases hX : collapseAux true (r0 :: rs) with
                | nil => rw [hX] at hx; simp at hx
                | cons x xs =>
                    rw [hX] at hx
                    rw [List.getLast?_cons_cons]
                    exact hx
          · rw [show collapseAux b (a :: r0 :: rs)
                = a :: collapseAux false (r0 :: rs) by simp [collapseAux, hw]]
            have hx := ih false c htail hc
            cases hX : collapseAux false (r0 :: rs) with
            | nil => rw [hX] at hx; simp at hx
            | cons x xs =>
                rw [hX] at hx
                rw [List.getLast?_cons_cons]
                exact hx

theorem getLast?_dropWhile (p : Char → Bool) (l : List Char) (c : Char)
    (h : (l.dropWhile p).getLast? = some c) : l.getLast? = some c := by
  conv_lhs => rw [← List.takeWhile_append_dropWhile p l]
  rw [List.getLast?_append, h]
  rfl

theorem trim_head_not_ws (s : List Char) (c : Char)
    (h : (trimChars s).head? = some c) : isWs c = false := by
  rw [trimChars, List.head?_reverse] at h
  have h2 := getLast?_dropWhile isWs ((s.dropWhile isWs).reverse) c h
  rw [List.getLast?_reverse] at h2
  exact dropWhile_head_not isWs s c h2

theorem trim_getLast_not_ws (s : List Char) (c : Char)
    (h : (trimChars s).getLast? = some c) : isWs c = false := by
  rw [trimChars, List.getLast?_reverse] at h
  exact dropWhile_head_not isWs _ c h

theorem trim_collapse_trim (s : List Char) :
    trimChars (collapseRuns (trimChars s)) = collapseRuns (trimChars s) := by
  cases hT : trimChars s with
  | nil => simp [collapseRuns, collapseAux, trimChars]
  | cons c cs =>
      have hhead : isWs c = false :=
        trim_head_not_ws s c (by rw [hT]; rfl)
      have hLne : (trimChars s).getLast?.isSome := by rw [hT]; simp
      obtain ⟨c2, hc2⟩ := Option.isSome_iff_exists.mp hLne
      have hlast : isWs c2 = false := trim_getLast_not_ws s c2 hc2
      have hwhead : (collapseRuns (c :: cs)).head? = some c :=
        collapse_head (c :: cs) c rfl hhead
      have hwlast : (collapseRuns (c :: cs)).getLast? = some c2 :=
        collapse_getLast (c :: cs) false c2 (by rw [← hT]; exact hc2) hlast
      have e1 : (collapseRuns (c :: cs)).dropWhile isWs = collapseRuns (c :: cs) :=
        dropWhile_eq_self_of_head isWs (collapseRuns (c :: cs)) (fun x hx => by
          rw [hwhead] at hx
          cases hx
          exact hhead)
      have e2 : (collapseRuns (c :: cs)).reverse.dropWhile isWs
          = (collapseRuns (c :: cs)).reverse :=
        dropWhile_eq_self_of_head isWs (collapseRuns (c :: cs)).reverse
          (fun x hx => by
            rw [List.head?_reverse, hwlast] at hx
            cases hx
            exact hlast)
      rw [trimChars, e1, e2, List.reverse_reverse]

theorem sanitizeChars_idem (s : List Char) :
    sanitizeChars (sanitizeChars s) = sanitizeChars s := by
  have h3 : hasTriple (removeAllFences (dropTrailingFence (dropOpeningFence s)))
      = false := hasTriple_removeAllFences _
  have ht : hasTriple
      (trimChars (removeAllFences (dropTrailingFence (dropOpeningFence s))))
      = false := by
    cases hh : hasTriple
        (trimChars (removeAllFences (dropTrailingFence (dropOpeningFence s)))) with
    | false => rfl
    | true =>
        have h4 := hasTriple_trim _ hh
        rw [h4] at h3
        exact Bool.noConfusion h3
  have hw : hasTriple (sanitizeChars s) = false := by
    cases hh : hasTriple (sanitizeChars s) with
    | false => rfl
    | true =>
        have h5 := hasTriple_collapseAux
          (trimChars (removeAllFences (dropTrailingFence (dropOpeningFence s))))
          false hh
        rw [h5] at ht
        exact Bool.noConfusion ht
  calc sanitizeChars (sanitizeChars s)
      = collapseRuns (trimChars (removeAllFences (dropTrailingFence
          (dropOpeningFence (sanitizeChars s))))) := rfl
    _ = collapseRuns (trimChars (sanitizeChars s)) := by
        rw [dropOpeningFence_eq_self _ hw, dropTrailingFence_eq_self _ hw,
            removeAllFences_eq_self _ hw]
    _ = sanitizeChars s := by
        have h6 : trimChars (sanitizeChars s) = sanitizeChars s :=
          trim_collapse_trim
            (removeAllFences (dropTrailingFence (dropOpeningFence s)))
        rw [h6]
        exact (collapseAux_idem
          (trimChars (removeAllFences (dropTrailingFence (dropOpeningFence s))))).1
          false

/-- C4: the Statement Sanitizer (modelled from the spec, since no sanitizer
function exists in the repository's source files) is a pure, total function on
strings, and it is idempotent: sanitizing an already-sanitized string changes
nothing. -/
theorem sanitize_idempotent (s : String) : sanitize (sanitize s) = sanitize s := by
  show (⟨sanitizeChars (sanitize s).data⟩ : String) = ⟨sanitizeChars s.data⟩
  have hdata : (sanitize s).data = sanitizeChars s.data := rfl
  rw [hdata, sanitizeChars_idem]

end AngeBot
